import Mathlib

/-!
# Form controller of `static/js/script.js`

A shallow embedding of the browser script: the document is an explicit state
(`Page`), and every function of the script is a function from the page before
the call to the page after it, together with the exception it raises, if any.
A function that raises part-way keeps the writes it made before raising.

The DOM operations the script calls are modelled on a single-choice drop-down
whose `<option>` children are all enabled:

* `select.value` reads the value of the selected option, `""` when none is;
* `select.remove(i)` deletes the option at index `i`; a drop-down that loses its
  selected option shows its first remaining option;
* `select.appendChild(option)` adds an unselected option at the end;
* `select.value = v` selects the first option whose value is `v`.

The promise chain of `fetchLanguages` is run on the way the request turned out
(`FetchResult`); the page it meets is the page at the time the chain resumes.
A row of the `custom-fields` container is known by its position among the
children of the container.
-/

namespace Script

/-! ## Data model -/

/-- One entry of a language list, `{code, name}`. -/
structure Language where
  code : String
  name : String
deriving DecidableEq, Repr

/-- The argument `languages` as JavaScript hands it over: `data.languages` is
either an array of languages or some value that is not an array (`undefined`
when the property is missing). -/
inductive JsLanguages where
  | notArray : JsLanguages
  | array : List Language → JsLanguages
deriving DecidableEq, Repr

/-- An `<option>` element: its `value` and its `textContent`. -/
structure OptionElement where
  value : String
  textContent : String
deriving DecidableEq, Repr

/-- A `<select>` element: its options in tree order and the index of the
selected option (`none` stands for `selectedIndex = -1`). -/
structure SelectElement where
  options : List OptionElement
  selectedIndex : Option Nat
deriving DecidableEq, Repr

/-- An `<input type="radio" name="api">` element. -/
structure RadioInput where
  value : String
  checked : Bool
deriving DecidableEq, Repr

/-- An element child of a custom-field row. -/
inductive RowChild where
  | input (type className name placeholder : String) (required : Bool) (value : String) : RowChild
  | button (type className onclick label : String) : RowChild
deriving DecidableEq, Repr

/-- An element child of the `custom-fields` container. -/
structure FieldRow where
  className : String
  children : List RowChild
deriving DecidableEq, Repr

/-- The part of the document the script reads and writes. An element looked up
by `getElementById` that is absent from the page is `none`. -/
structure Page where
  src_lang : Option SelectElement
  target_lang : Option SelectElement
  apiRadios : List RadioInput
  customFields : Option (List FieldRow)
  overlays : Nat
deriving DecidableEq, Repr

/-- Exceptions the script can raise or receive. -/
inductive JsError where
  | typeError : JsError
  | networkError : JsError
  | jsonError : JsError
deriving DecidableEq, Repr

/-- Result of running a function of the script: the page it leaves and the
exception that ended it, if one did. -/
structure Outcome where
  page : Page
  thrown : Option JsError
deriving DecidableEq, Repr

/-! ## DOM operations on a select -/

/-- Getter `select.value`. -/
def SelectElement.value (s : SelectElement) : String :=
  match s.selectedIndex with
  | none => ""
  | some i =>
    match s.options.get? i with
    | some o => o.value
    | none => ""

/-- Selectedness after the option list changed: a drop-down left without a
selected option shows its first option. -/
def SelectElement.resetSelectedness (s : SelectElement) : SelectElement :=
  match s.selectedIndex with
  | some _ => s
  | none =>
    match s.options with
    | [] => s
    | _ :: _ => { s with selectedIndex := some 0 }

/-- Method `select.remove(i)`. -/
def SelectElement.remove (s : SelectElement) (i : Nat) : SelectElement :=
  if i < s.options.length then
    SelectElement.resetSelectedness
      { options := s.options.eraseIdx i
        selectedIndex :=
          match s.selectedIndex with
          | none => none
          | some j => if j < i then some j else if j = i then none else some (j - 1) }
  else s

/-- Method `select.appendChild(option)` for a freshly created option. -/
def SelectElement.appendChild (s : SelectElement) (o : OptionElement) : SelectElement :=
  SelectElement.resetSelectedness { s with options := s.options ++ [o] }

/-- Setter `select.value = v`. -/
def SelectElement.setValue (s : SelectElement) (v : String) : SelectElement :=
  { s with selectedIndex := s.options.findIdx? (fun o => o.value == v) }

/-! ## populateLanguageSelects -/

/-- The loop `while (select.options.length > 1) select.remove(1)`. -/
def clearAfterFirst (s : SelectElement) : SelectElement :=
  if s.options.length > 1 then clearAfterFirst (s.remove 1) else s
termination_by s.options.length
decreasing_by
  have hlt : 1 < s.options.length := by assumption
  have ho : (s.remove 1).options = s.options.eraseIdx 1 := by
    unfold SelectElement.remove SelectElement.resetSelectedness
    rw [if_pos hlt]
    split
    · rfl
    · split <;> rfl
  rw [ho, List.length_eraseIdx, if_pos hlt]
  omega

/-- The table `libreTranslateLanguages`. -/
def libreTranslateLanguages : List Language :=
  [ ⟨"en", "English"⟩,
    ⟨"ar", "Arabic"⟩,
    ⟨"zh", "Chinese"⟩,
    ⟨"nl", "Dutch"⟩,
    ⟨"fr", "French"⟩,
    ⟨"de", "German"⟩,
    ⟨"hi", "Hindi"⟩,
    ⟨"hu", "Hungarian"⟩,
    ⟨"id", "Indonesian"⟩,
    ⟨"ga", "Irish"⟩,
    ⟨"it", "Italian"⟩,
    ⟨"ja", "Japanese"⟩,
    ⟨"ko", "Korean"⟩,
    ⟨"pl", "Polish"⟩,
    ⟨"pt", "Portuguese"⟩,
    ⟨"ru", "Russian"⟩,
    ⟨"es", "Spanish"⟩,
    ⟨"sv", "Swedish"⟩,
    ⟨"tr", "Turkish"⟩,
    ⟨"uk", "Ukrainian"⟩,
    ⟨"vi", "Vietnamese"⟩ ]

/-- The option element built for a language: `value = code`, `textContent = name`. -/
def optionOf (lang : Language) : OptionElement :=
  { value := lang.code, textContent := lang.name }

/-- Body of the `forEach` callback: one language is added to the source select
unless its code is `en` and to the target select unless its code is `ru`. -/
def addLanguage (sel : SelectElement × SelectElement) (lang : Language) :
    SelectElement × SelectElement :=
  let srcLangSelect := if lang.code ≠ "en" then sel.1.appendChild (optionOf lang) else sel.1
  let targetLangSelect := if lang.code ≠ "ru" then sel.2.appendChild (optionOf lang) else sel.2
  (srcLangSelect, targetLangSelect)

/-- The block `if (selected) { if (options.some(opt => opt.value === selected))
select.value = selected }`. -/
def restoreSelected (s : SelectElement) (selected : String) : SelectElement :=
  if selected ≠ "" then
    if s.options.any (fun opt => opt.value == selected) then s.setValue selected else s
  else s

/-- Result of `document.querySelector('input[name="api"]:checked')`. -/
def Page.checkedApi (doc : Page) : Option RadioInput :=
  doc.apiRadios.find? (fun r => r.checked)

/-- Function `populateLanguageSelects(languages)`. -/
def populateLanguageSelects (languages : JsLanguages) (doc : Page) : Outcome :=
  match doc.src_lang, doc.target_lang with
  | some srcLangSelect, some targetLangSelect =>
    let selectedSrcLang := srcLangSelect.value
    let selectedTargetLang := targetLangSelect.value
    let srcCleared := clearAfterFirst srcLangSelect
    let targetCleared := clearAfterFirst targetLangSelect
    let cleared : Page :=
      { doc with src_lang := some srcCleared, target_lang := some targetCleared }
    match doc.checkedApi with
    | none => { page := cleared, thrown := some JsError.typeError }
    | some radio =>
      let selectedApi := radio.value
      let languagesToUse :=
        if selectedApi = "libretranslate" then JsLanguages.array libreTranslateLanguages
        else languages
      match languagesToUse with
      | JsLanguages.notArray => { page := cleared, thrown := some JsError.typeError }
      | JsLanguages.array langs =>
        let filled := langs.foldl addLanguage (srcCleared, targetCleared)
        { page :=
            { doc with
              src_lang := some (restoreSelected filled.1 selectedSrcLang)
              target_lang := some (restoreSelected filled.2 selectedTargetLang) }
          thrown := none }
  | _, _ => { page := doc, thrown := none }

/-! ## fetchLanguages -/

/-- How the request `fetch('/languages')` turns out. -/
inductive FetchResult where
  /-- The promise returned by `fetch` rejects (network error). -/
  | rejected : FetchResult
  /-- The promise returned by `response.json()` rejects: the body is not JSON. -/
  | notJson : FetchResult
  /-- The body is the JSON value `null`, on which `data.languages` throws. -/
  | jsonNull : FetchResult
  /-- The body is a JSON value `data` and `data.languages` evaluates to the
  given value. -/
  | json : JsLanguages → FetchResult
deriving DecidableEq, Repr

/-- State of the promise chain of `fetchLanguages`: the page, the arguments
`populateLanguageSelects` has been invoked with, what `console.error` has been
given, and the pending rejection of the chain, if any. -/
structure FetchRun where
  page : Page
  populateCalls : List JsLanguages
  consoleErrors : List JsError
  rejection : Option JsError
deriving DecidableEq, Repr

/-- Function `fetchLanguages()`, the request having turned out as `r`. -/
def fetchLanguages (r : FetchResult) (doc : Page) : FetchRun :=
  -- fetch('/languages').then(response => response.json())
  let data : Except JsError (Option JsLanguages) :=
    match r with
    | FetchResult.rejected => Except.error JsError.networkError
    | FetchResult.notJson => Except.error JsError.jsonError
    | FetchResult.jsonNull => Except.ok none
    | FetchResult.json languages => Except.ok (some languages)
  -- .then(data => { populateLanguageSelects(data.languages); })
  let afterThen : FetchRun :=
    match data with
    | Except.error e =>
      { page := doc, populateCalls := [], consoleErrors := [], rejection := some e }
    | Except.ok none =>
      { page := doc, populateCalls := [], consoleErrors := [],
        rejection := some JsError.typeError }
    | Except.ok (some languages) =>
      let run := populateLanguageSelects languages doc
      { page := run.page, populateCalls := [languages], consoleErrors := [],
        rejection := run.thrown }
  -- .catch(error => { console.error('Error fetching languages:', error); })
  match afterThen.rejection with
  | none => afterThen
  | some error => { afterThen with consoleErrors := [error], rejection := none }

/-! ## Custom fields -/

/-- The row `addCustomField` creates: a `div` of class `custom-field-row` whose
`innerHTML` holds the text input and the remove button. -/
def newFieldRow : FieldRow :=
  { className := "custom-field-row"
    children :=
      [ RowChild.input "text" "form-control" "fields" "Enter field name" true "",
        RowChild.button "button" "btn btn-outline-danger" "removeCustomField(this)" "&times;" ] }

/-- Function `addCustomField()`. -/
def addCustomField (doc : Page) : Outcome :=
  match doc.customFields with
  | none =>
    -- customFieldsContainer is null: reading `.children` throws
    { page := doc, thrown := some JsError.typeError }
  | some children =>
    { page := { doc with customFields := some (children ++ [newFieldRow]) }, thrown := none }

/-- Calling `addCustomField()` `n` times in a row; an exception ends the run. -/
def addCustomFieldTimes : Nat → Page → Outcome
  | 0, doc => { page := doc, thrown := none }
  | n + 1, doc =>
    let run := addCustomField doc
    match run.thrown with
    | some e => { page := run.page, thrown := some e }
    | none => addCustomFieldTimes n run.page

/-- What `button.parentElement` is for the element handed to
`removeCustomField`: `null` for a detached element, else the row holding the
button, a row being known by its position among the children of the
`custom-fields` container. -/
inductive ParentElement where
  | null : ParentElement
  | fieldRow : Nat → ParentElement
deriving DecidableEq, Repr

/-- The element handed to `removeCustomField`. -/
structure ButtonElement where
  parentElement : ParentElement
deriving DecidableEq, Repr

/-- The remove button of the row at position `i` of the container. -/
def removeButtonOf (i : Nat) : ButtonElement :=
  { parentElement := ParentElement.fieldRow i }

/-- Function `removeCustomField(button)`. -/
def removeCustomField (button : ButtonElement) (doc : Page) : Outcome :=
  match button.parentElement with
  | ParentElement.null =>
    -- fieldRow is null: calling `.remove()` throws
    { page := doc, thrown := some JsError.typeError }
  | ParentElement.fieldRow i =>
    { page := { doc with customFields := doc.customFields.map (fun rows => rows.eraseIdx i) }
      thrown := none }

/-- Function `showLoadingOverlay()`: one more overlay element under `body`. -/
def showLoadingOverlay (doc : Page) : Outcome :=
  { page := { doc with overlays := doc.overlays + 1 }, thrown := none }

/-! ## Selection shown by a select -/

/-- A select shows a selection: its selected index points at one of its options. -/
def SelectElement.HasSelection (s : SelectElement) : Prop :=
  ∃ i, s.selectedIndex = some i ∧ i < s.options.length

/-! ## Concrete pages used as inputs -/

/-- A source select: English first, two more languages, French selected. -/
def sampleSrc : SelectElement :=
  ⟨[⟨"en", "English"⟩, ⟨"fr", "French"⟩, ⟨"de", "German"⟩], some 1⟩

/-- A target select: Russian first and selected, one more language. -/
def sampleTarget : SelectElement :=
  ⟨[⟨"ru", "Russian"⟩, ⟨"fr", "French"⟩], some 0⟩

/-- A page whose selects hold two and one languages after their first option,
with a provider other than LibreTranslate checked. -/
def samplePage : Page :=
  { src_lang := some sampleSrc
    target_lang := some sampleTarget
    apiRadios := [⟨"google", true⟩, ⟨"libretranslate", false⟩]
    customFields := some []
    overlays := 0 }

/-- The same page with the LibreTranslate provider checked. -/
def libreSamplePage : Page :=
  { samplePage with apiRadios := [⟨"google", false⟩, ⟨"libretranslate", true⟩] }

/-- A fetched list holding `en`, `ru` and two more languages. -/
def sampleLanguages : List Language :=
  [⟨"en", "English"⟩, ⟨"fr", "French"⟩, ⟨"ru", "Russian"⟩, ⟨"es", "Spanish"⟩]

/-- A source select whose selected option, the second one, has the empty string
as its value. -/
def emptyCodeSelect : SelectElement :=
  ⟨[⟨"en", "English"⟩, ⟨"", "Detect language"⟩], some 1⟩

/-- A page whose source select is `emptyCodeSelect`. -/
def emptyCodePage : Page :=
  { src_lang := some emptyCodeSelect
    target_lang := some ⟨[⟨"ru", "Russian"⟩], some 0⟩
    apiRadios := [⟨"google", true⟩, ⟨"libretranslate", false⟩]
    customFields := some []
    overlays := 0 }

/-- The sample page without its `custom-fields` container. -/
def pageWithoutContainer : Page :=
  { samplePage with customFields := none }

/-- A row as the user left it: the text input holds `value`. -/
def filledRow (value : String) : FieldRow :=
  { className := "custom-field-row"
    children :=
      [ RowChild.input "text" "form-control" "fields" "Enter field name" true value,
        RowChild.button "button" "btn btn-outline-danger" "removeCustomField(this)" "&times;" ] }

/-- The sample page with three filled rows in its container. -/
def pageWithRows : Page :=
  { samplePage with customFields := some [filledRow "title", filledRow "body", filledRow "note"] }

/-- A fetched list with an entry whose code is the empty string. -/
def emptyCodeLanguages : List Language :=
  [⟨"", "Detect language"⟩, ⟨"fr", "French"⟩]

/-! ## Facts about the select operations -/

/-- Resetting selectedness never touches the option list. -/
theorem SelectElement.options_resetSelectedness (s : SelectElement) :
    (SelectElement.resetSelectedness s).options = s.options := by
  unfold SelectElement.resetSelectedness
  split
  · rfl
  · split <;> rfl

/-- The option list after `remove`. -/
theorem SelectElement.options_remove (s : SelectElement) (i : Nat) :
    (s.remove i).options = s.options.eraseIdx i := by
  unfold SelectElement.remove
  split
  · rw [SelectElement.options_resetSelectedness]
  · rw [List.eraseIdx_of_length_le (by omega)]

/-- Length of the option list after `remove` on a valid index. -/
theorem SelectElement.length_remove (s : SelectElement) (i : Nat) (h : i < s.options.length) :
    (s.remove i).options.length = s.options.length - 1 := by
  rw [SelectElement.options_remove, List.length_eraseIdx, if_pos h]

/-- The clearing loop keeps the first option and nothing else. -/
theorem clearAfterFirst_options (s : SelectElement) :
    (clearAfterFirst s).options = s.options.take 1 := by
  induction s using clearAfterFirst.induct with
  | case1 s h ih =>
    rw [clearAfterFirst, if_pos h, ih, SelectElement.options_remove]
    cases hs : s.options with
    | nil => rfl
    | cons a t => cases t <;> rfl
  | case2 s h =>
    rw [clearAfterFirst, if_neg h, List.take_of_length_le (by omega)]

/-- Appending a child adds exactly that option at the end. -/
theorem SelectElement.options_appendChild (s : SelectElement) (o : OptionElement) :
    (s.appendChild o).options = s.options ++ [o] := by
  unfold SelectElement.appendChild
  rw [SelectElement.options_resetSelectedness]

/-- Restoring the selection never touches the option list. -/
theorem restoreSelected_options (s : SelectElement) (v : String) :
    (restoreSelected s v).options = s.options := by
  unfold restoreSelected SelectElement.setValue
  split
  · split <;> rfl
  · rfl

/-- The `forEach` callback on a pair of selects. -/
theorem addLanguage_pair (a b : SelectElement) (l : Language) :
    addLanguage (a, b) l =
      (if l.code ≠ "en" then a.appendChild (optionOf l) else a,
       if l.code ≠ "ru" then b.appendChild (optionOf l) else b) := rfl

/-- Options of the source select after the `forEach`. -/
theorem foldl_addLanguage_src (langs : List Language) (a b : SelectElement) :
    (langs.foldl addLanguage (a, b)).1.options =
      a.options ++ (langs.filter (fun l => decide (l.code ≠ "en"))).map optionOf := by
  induction langs generalizing a b with
  | nil => simp
  | cons l t ih =>
    rw [List.foldl_cons, addLanguage_pair, ih]
    by_cases h : l.code = "en"
    · simp [h]
    · simp [h, SelectElement.options_appendChild]

/-- Options of the target select after the `forEach`. -/
theorem foldl_addLanguage_target (langs : List Language) (a b : SelectElement) :
    (langs.foldl addLanguage (a, b)).2.options =
      b.options ++ (langs.filter (fun l => decide (l.code ≠ "ru"))).map optionOf := by
  induction langs generalizing a b with
  | nil => simp
  | cons l t ih =>
    rw [List.foldl_cons, addLanguage_pair, ih]
    by_cases h : l.code = "ru"
    · simp [h]
    · simp [h, SelectElement.options_appendChild]

/-- The clearing loop runs `remove(1)` once per option after the first. -/
theorem clearAfterFirst_eq_iterate (s : SelectElement) :
    clearAfterFirst s = (fun x : SelectElement => x.remove 1)^[s.options.length - 1] s := by
  induction s using clearAfterFirst.induct with
  | case1 s h ih =>
    rw [clearAfterFirst, if_pos h, ih, SelectElement.length_remove s 1 h,
      ← Function.iterate_succ_apply]
    congr 1
    omega
  | case2 s h =>
    rw [clearAfterFirst, if_neg h]
    have h0 : s.options.length - 1 = 0 := by omega
    rw [h0]
    rfl

/-- Removing the second option of a select that shows a selection leaves a
select that shows a selection. -/
theorem SelectElement.hasSelection_remove_one (s : SelectElement)
    (h : 1 < s.options.length) (hs : s.HasSelection) : (s.remove 1).HasSelection := by
  obtain ⟨opts, sel⟩ := s
  obtain ⟨i, hi, hlt⟩ := hs
  simp only at hi hlt h
  subst hi
  match opts, h, hlt with
  | a :: b :: rest, _, hlt =>
    rcases Nat.lt_trichotomy i 1 with h0 | h1 | h2
    · exact ⟨i, by simp [SelectElement.remove, SelectElement.resetSelectedness, h0],
        by simp [SelectElement.options_remove]; omega⟩
    · exact ⟨0, by simp [SelectElement.remove, SelectElement.resetSelectedness, h1],
        by simp [SelectElement.options_remove]⟩
    · have h3 : ¬ i < 1 := by omega
      have h4 : ¬ i = 1 := by omega
      exact ⟨i - 1, by simp [SelectElement.remove, SelectElement.resetSelectedness, h3, h4],
        by simp [SelectElement.options_remove] at hlt ⊢; omega⟩

/-- After the clearing loop a select that showed a selection shows its first
option. -/
theorem clearAfterFirst_selectedIndex (s : SelectElement) (hs : s.HasSelection) :
    (clearAfterFirst s).selectedIndex = some 0 := by
  induction s using clearAfterFirst.induct with
  | case1 s h ih =>
    rw [clearAfterFirst, if_pos h]
    exact ih (SelectElement.hasSelection_remove_one s h hs)
  | case2 s h =>
    rw [clearAfterFirst, if_neg h]
    obtain ⟨i, hi, hlt⟩ := hs
    have h0 : i = 0 := by omega
    rw [hi, h0]

/-- Appending a child to a select with a selected index keeps that index. -/
theorem SelectElement.selectedIndex_appendChild (s : SelectElement) (o : OptionElement) (i : Nat)
    (h : s.selectedIndex = some i) : (s.appendChild o).selectedIndex = some i := by
  simp [SelectElement.appendChild, SelectElement.resetSelectedness, h]

/-- The `forEach` keeps the selected index of the source select. -/
theorem foldl_addLanguage_src_selected (langs : List Language) (a b : SelectElement) (i : Nat)
    (h : a.selectedIndex = some i) : (langs.foldl addLanguage (a, b)).1.selectedIndex = some i := by
  induction langs generalizing a b with
  | nil => simpa using h
  | cons l t ih =>
    rw [List.foldl_cons, addLanguage_pair]
    apply ih
    split
    · exact SelectElement.selectedIndex_appendChild a _ i h
    · exact h

/-- The `forEach` keeps the selected index of the target select. -/
theorem foldl_addLanguage_target_selected (langs : List Language) (a b : SelectElement) (i : Nat)
    (h : b.selectedIndex = some i) : (langs.foldl addLanguage (a, b)).2.selectedIndex = some i := by
  induction langs generalizing a b with
  | nil => simpa using h
  | cons l t ih =>
    rw [List.foldl_cons, addLanguage_pair]
    apply ih
    split
    · exact SelectElement.selectedIndex_appendChild b _ i h
    · exact h

/-- A select whose selected index is 0 has the value of its first option. -/
theorem SelectElement.value_of_first (s : SelectElement) (f : OptionElement)
    (rest : List OptionElement) (ho : s.options = f :: rest) (hi : s.selectedIndex = some 0) :
    s.value = f.value := by
  simp [SelectElement.value, ho, hi]

/-- Setting the value to that of an existing option makes it the value read back. -/
theorem SelectElement.value_setValue (s : SelectElement) (v : String)
    (h : s.options.any (fun o => o.value == v) = true) : (s.setValue v).value = v := by
  cases hf : s.options.findIdx? (fun o => o.value == v) with
  | none =>
    rw [List.findIdx?_eq_none_iff] at hf
    rw [List.any_eq_true] at h
    obtain ⟨x, hx, hp⟩ := h
    exact absurd hp (by simpa using hf x hx)
  | some i =>
    obtain ⟨hlt, hp, _⟩ := List.findIdx?_eq_some_iff_getElem.mp hf
    have hg : s.options.get? i = some s.options[i] := by simp [hlt]
    simp only [SelectElement.value, SelectElement.setValue, hf, hg]
    simpa using hp

/-- Value of a select after the restore block, when it showed its first option
before the block. -/
theorem restoreSelected_value (s : SelectElement) (v : String) (f : OptionElement)
    (rest : List OptionElement) (ho : s.options = f :: rest) (hi : s.selectedIndex = some 0) :
    (restoreSelected s v).value =
      if v ≠ "" ∧ s.options.any (fun o => o.value == v) = true then v else f.value := by
  unfold restoreSelected
  by_cases hv : v = ""
  · simp [hv, SelectElement.value_of_first s f rest ho hi]
  · by_cases ha : s.options.any (fun o => o.value == v) = true
    · rw [if_pos hv, if_pos ha, if_pos ⟨hv, ha⟩]
      exact SelectElement.value_setValue s v ha
    · rw [if_pos hv, if_neg ha, if_neg (fun hc => ha hc.2)]
      exact SelectElement.value_of_first s f rest ho hi

/-- What `populateLanguageSelects` does once both selects are found, a provider
radio is checked and the list it is to use is an array. -/
theorem populateLanguageSelects_array (languages : JsLanguages) (doc : Page)
    (s t : SelectElement) (r : RadioInput) (langs : List Language)
    (hs : doc.src_lang = some s) (ht : doc.target_lang = some t)
    (hr : doc.checkedApi = some r)
    (hl : (if r.value = "libretranslate" then JsLanguages.array libreTranslateLanguages
            else languages) = JsLanguages.array langs) :
    populateLanguageSelects languages doc =
      { page :=
          { doc with
            src_lang := some (restoreSelected
              (langs.foldl addLanguage (clearAfterFirst s, clearAfterFirst t)).1 s.value)
            target_lang := some (restoreSelected
              (langs.foldl addLanguage (clearAfterFirst s, clearAfterFirst t)).2 t.value) }
        thrown := none } := by
  unfold populateLanguageSelects
  simp only [hs, ht, hr, hl]

/-- When a select is missing `populateLanguageSelects` returns at once. -/
theorem populateLanguageSelects_missing (languages : JsLanguages) (doc : Page)
    (h : doc.src_lang = none ∨ doc.target_lang = none) :
    populateLanguageSelects languages doc = { page := doc, thrown := none } := by
  unfold populateLanguageSelects
  rcases h with h | h
  · simp [h]
  · cases hs : doc.src_lang <;> simp [h]

/-- Value of a select after the restore block, read against the options it
ends with. -/
theorem restoreSelected_spec (a : SelectElement) (v : String) (f : OptionElement)
    (rest : List OptionElement) (ho : a.options = f :: rest) (hi : a.selectedIndex = some 0) :
    (v ≠ "" → (∃ o ∈ (restoreSelected a v).options, o.value = v) →
      (restoreSelected a v).value = v) ∧
    ((v = "" ∨ ¬ ∃ o ∈ (restoreSelected a v).options, o.value = v) →
      (restoreSelected a v).value = f.value) := by
  rw [restoreSelected_options, restoreSelected_value a v f rest ho hi]
  have hany : a.options.any (fun o => o.value == v) = true ↔ ∃ o ∈ a.options, o.value = v := by
    simp [List.any_eq_true]
  constructor
  · intro hv hex
    rw [if_pos ⟨hv, hany.mpr hex⟩]
  · intro h
    rw [if_neg]
    rintro ⟨hv, ha⟩
    rcases h with h | h
    · exact hv h
    · exact h (hany.mp ha)

/-- Whatever the checked provider, an array argument leaves an array to use. -/
theorem languagesToUse_array (r : RadioInput) (L : List Language) :
    ∃ langs, (if r.value = "libretranslate" then JsLanguages.array libreTranslateLanguages
      else JsLanguages.array L) = JsLanguages.array langs ∧
      (r.value = "libretranslate" → langs = libreTranslateLanguages) ∧
      (r.value ≠ "libretranslate" → langs = L) := by
  by_cases h : r.value = "libretranslate"
  · exact ⟨libreTranslateLanguages, if_pos h, fun _ => rfl, fun hn => absurd h hn⟩
  · exact ⟨L, if_neg h, fun hp => absurd hp h, fun _ => rfl⟩

/-- Option lists after `populateLanguageSelects`, in terms of the list it used. -/
theorem populateLanguageSelects_options (languages : JsLanguages) (doc : Page)
    (s t : SelectElement) (fs ft : OptionElement) (rs rt : List OptionElement)
    (r : RadioInput) (langs : List Language)
    (hs : doc.src_lang = some s) (ht : doc.target_lang = some t)
    (hfs : s.options = fs :: rs) (hft : t.options = ft :: rt)
    (hr : doc.checkedApi = some r)
    (hl : (if r.value = "libretranslate" then JsLanguages.array libreTranslateLanguages
            else languages) = JsLanguages.array langs) :
    ∃ s1 t1,
      populateLanguageSelects languages doc =
        { page := { doc with src_lang := some s1, target_lang := some t1 }, thrown := none } ∧
      s1.options = fs :: (langs.filter (fun l => decide (l.code ≠ "en"))).map optionOf ∧
      t1.options = ft :: (langs.filter (fun l => decide (l.code ≠ "ru"))).map optionOf := by
  refine ⟨_, _, populateLanguageSelects_array languages doc s t r langs hs ht hr hl, ?_, ?_⟩
  · rw [restoreSelected_options, foldl_addLanguage_src, clearAfterFirst_options, hfs]
    rfl
  · rw [restoreSelected_options, foldl_addLanguage_target, clearAfterFirst_options, hft]
    rfl

/-! ## The claims -/

/-- C1: with both selects present, each with a first option, and a checked
provider other than `libretranslate`, `populateLanguageSelects(L)` ends without
an exception and leaves in `src_lang` its first option followed by one option
(value the code, text the name) per entry of `L` whose code is not `en`, in the
order of `L`, and in `target_lang` its first option followed by one option
(value the code, text the name) per entry of `L` whose code is not `ru`, in the
order of `L`. -/
theorem populate_fetched_list (doc : Page) (s t : SelectElement) (fs ft : OptionElement)
    (rs rt : List OptionElement) (r : RadioInput) (L : List Language)
    (hs : doc.src_lang = some s) (ht : doc.target_lang = some t)
    (hfs : s.options = fs :: rs) (hft : t.options = ft :: rt)
    (hr : doc.checkedApi = some r) (hv : r.value ≠ "libretranslate") :
    ∃ s1 t1,
      (populateLanguageSelects (JsLanguages.array L) doc).thrown = none ∧
      (populateLanguageSelects (JsLanguages.array L) doc).page.src_lang = some s1 ∧
      (populateLanguageSelects (JsLanguages.array L) doc).page.target_lang = some t1 ∧
      s1.options = fs :: (L.filter (fun l => decide (l.code ≠ "en"))).map
        (fun l => { value := l.code, textContent := l.name }) ∧
      t1.options = ft :: (L.filter (fun l => decide (l.code ≠ "ru"))).map
        (fun l => { value := l.code, textContent := l.name }) := by
  rw [populateLanguageSelects_array (JsLanguages.array L) doc s t r L hs ht hr (if_neg hv)]
  refine ⟨_, _, rfl, rfl, rfl, ?_, ?_⟩
  · rw [restoreSelected_options, foldl_addLanguage_src, clearAfterFirst_options, hfs]
    rfl
  · rw [restoreSelected_options, foldl_addLanguage_target, clearAfterFirst_options, hft]
    rfl

/-- Witness of C1 on the sample page and the sample list `en, fr, ru, es`: the
source select ends with `en` (its first option), `fr`, `ru`, `es`, the target
select with `ru` (its first option), `en`, `fr`, `es`. -/
theorem populate_fetched_list_witness :
    ∃ s1 t1,
      (populateLanguageSelects (JsLanguages.array sampleLanguages) samplePage).thrown = none ∧
      (populateLanguageSelects (JsLanguages.array sampleLanguages) samplePage).page.src_lang
        = some s1 ∧
      (populateLanguageSelects (JsLanguages.array sampleLanguages) samplePage).page.target_lang
        = some t1 ∧
      s1.options =
        [⟨"en", "English"⟩, ⟨"fr", "French"⟩, ⟨"ru", "Russian"⟩, ⟨"es", "Spanish"⟩] ∧
      t1.options =
        [⟨"ru", "Russian"⟩, ⟨"en", "English"⟩, ⟨"fr", "French"⟩, ⟨"es", "Spanish"⟩] :=
  populate_fetched_list samplePage sampleSrc sampleTarget
    ⟨"en", "English"⟩ ⟨"ru", "Russian"⟩ [⟨"fr", "French"⟩, ⟨"de", "German"⟩] [⟨"fr", "French"⟩]
    ⟨"google", true⟩ sampleLanguages rfl rfl rfl rfl rfl (by decide)

/-- C2: with both selects present and the checked provider `libretranslate`,
the outcome of `populateLanguageSelects` is the same for every argument, an
absent list included: no exception, and each select holds its first option
followed by the entries of the built-in table (all but `en` in `src_lang`, all
but `ru` in `target_lang`). -/
theorem populate_libretranslate_ignores_argument (doc : Page) (s t : SelectElement)
    (r : RadioInput) (L1 L2 : JsLanguages)
    (hs : doc.src_lang = some s) (ht : doc.target_lang = some t)
    (hr : doc.checkedApi = some r) (hv : r.value = "libretranslate") :
    populateLanguageSelects L1 doc = populateLanguageSelects L2 doc ∧
    ∃ s1 t1,
      (populateLanguageSelects L1 doc).thrown = none ∧
      (populateLanguageSelects L1 doc).page.src_lang = some s1 ∧
      (populateLanguageSelects L1 doc).page.target_lang = some t1 ∧
      s1.options = s.options.take 1 ++
        (libreTranslateLanguages.filter (fun l => decide (l.code ≠ "en"))).map optionOf ∧
      t1.options = t.options.take 1 ++
        (libreTranslateLanguages.filter (fun l => decide (l.code ≠ "ru"))).map optionOf := by
  rw [populateLanguageSelects_array L1 doc s t r libreTranslateLanguages hs ht hr (if_pos hv),
    populateLanguageSelects_array L2 doc s t r libreTranslateLanguages hs ht hr (if_pos hv)]
  refine ⟨rfl, _, _, rfl, rfl, rfl, ?_, ?_⟩
  · rw [restoreSelected_options, foldl_addLanguage_src, clearAfterFirst_options]
  · rw [restoreSelected_options, foldl_addLanguage_target, clearAfterFirst_options]

/-- Witness of C2 on the sample page with LibreTranslate checked: an absent
list and the sample list give the same outcome. -/
theorem populate_libretranslate_ignores_argument_witness :
    populateLanguageSelects JsLanguages.notArray libreSamplePage =
      populateLanguageSelects (JsLanguages.array sampleLanguages) libreSamplePage ∧
    ∃ s1 t1,
      (populateLanguageSelects JsLanguages.notArray libreSamplePage).thrown = none ∧
      (populateLanguageSelects JsLanguages.notArray libreSamplePage).page.src_lang = some s1 ∧
      (populateLanguageSelects JsLanguages.notArray libreSamplePage).page.target_lang = some t1 ∧
      s1.options = [(⟨"en", "English"⟩ : OptionElement)] ++
        (libreTranslateLanguages.filter (fun l => decide (l.code ≠ "en"))).map optionOf ∧
      t1.options = [(⟨"ru", "Russian"⟩ : OptionElement)] ++
        (libreTranslateLanguages.filter (fun l => decide (l.code ≠ "ru"))).map optionOf :=
  populate_libretranslate_ignores_argument libreSamplePage sampleSrc sampleTarget
    ⟨"libretranslate", true⟩ JsLanguages.notArray (JsLanguages.array sampleLanguages)
    rfl rfl rfl rfl

/-- C3, the failing input: the source select shows the option of value `""`
and the new option list still holds an option of value `""`, so the value is
available in the new options and, by the comment above the restore block, is to
be restored; yet after `populateLanguageSelects` the select shows `en`, its
first option, because the check `if (selectedSrcLang)` takes the empty string
for no selection. -/
theorem populate_selection_empty_value_lost :
    emptyCodePage.src_lang = some emptyCodeSelect ∧
    emptyCodePage.checkedApi = some ⟨"google", true⟩ ∧
    emptyCodeSelect.value = "" ∧
    ∃ s1,
      (populateLanguageSelects (JsLanguages.array emptyCodeLanguages) emptyCodePage).page.src_lang
        = some s1 ∧
      (∃ o ∈ s1.options, o.value = emptyCodeSelect.value) ∧
      s1.value = "en" ∧
      s1.value ≠ emptyCodeSelect.value := by
  refine ⟨rfl, rfl, rfl,
    ⟨[⟨"en", "English"⟩, ⟨"", "Detect language"⟩, ⟨"fr", "French"⟩], some 0⟩, ?_,
    ⟨⟨"", "Detect language"⟩, by decide, by decide⟩, by decide, by decide⟩
  simp only [populateLanguageSelects, emptyCodePage, emptyCodeSelect, emptyCodeLanguages,
    clearAfterFirst_eq_iterate]
  decide

/-- Selection after `populateLanguageSelects(L)` away from the empty value:
with both selects present, each showing one of its options as selected, and a
provider radio checked, the value of each select is the value it had before
when that value is not the empty string and is the value of some option of the
new list, and otherwise is the value of the first option of the select. -/
theorem populate_selection (doc : Page) (s t : SelectElement) (fs ft : OptionElement)
    (rs rt : List OptionElement) (r : RadioInput) (L : List Language)
    (hs : doc.src_lang = some s) (ht : doc.target_lang = some t)
    (hfs : s.options = fs :: rs) (hft : t.options = ft :: rt)
    (hss : s.HasSelection) (hst : t.HasSelection)
    (hr : doc.checkedApi = some r) :
    ∃ s1 t1,
      (populateLanguageSelects (JsLanguages.array L) doc).thrown = none ∧
      (populateLanguageSelects (JsLanguages.array L) doc).page.src_lang = some s1 ∧
      (populateLanguageSelects (JsLanguages.array L) doc).page.target_lang = some t1 ∧
      (s.value ≠ "" → (∃ o ∈ s1.options, o.value = s.value) → s1.value = s.value) ∧
      ((s.value = "" ∨ ¬ ∃ o ∈ s1.options, o.value = s.value) → s1.value = fs.value) ∧
      (t.value ≠ "" → (∃ o ∈ t1.options, o.value = t.value) → t1.value = t.value) ∧
      ((t.value = "" ∨ ¬ ∃ o ∈ t1.options, o.value = t.value) → t1.value = ft.value) := by
  obtain ⟨langs, hl, _, _⟩ := languagesToUse_array r L
  rw [populateLanguageSelects_array (JsLanguages.array L) doc s t r langs hs ht hr hl]
  have hso := foldl_addLanguage_src langs (clearAfterFirst s) (clearAfterFirst t)
  have hto := foldl_addLanguage_target langs (clearAfterFirst s) (clearAfterFirst t)
  rw [clearAfterFirst_options, hfs] at hso
  rw [clearAfterFirst_options, hft] at hto
  have hsi := foldl_addLanguage_src_selected langs (clearAfterFirst s) (clearAfterFirst t) 0
    (clearAfterFirst_selectedIndex s hss)
  have hti := foldl_addLanguage_target_selected langs (clearAfterFirst s) (clearAfterFirst t) 0
    (clearAfterFirst_selectedIndex t hst)
  have hsrc := restoreSelected_spec _ s.value fs _ hso hsi
  have htgt := restoreSelected_spec _ t.value ft _ hto hti
  exact ⟨_, _, rfl, rfl, rfl, hsrc.1, hsrc.2, htgt.1, htgt.2⟩

/-- The selection lemma applied to the sample page and the sample list. -/
theorem populate_selection_witness :
    ∃ s1 t1,
      (populateLanguageSelects (JsLanguages.array sampleLanguages) samplePage).thrown = none ∧
      (populateLanguageSelects (JsLanguages.array sampleLanguages) samplePage).page.src_lang
        = some s1 ∧
      (populateLanguageSelects (JsLanguages.array sampleLanguages) samplePage).page.target_lang
        = some t1 ∧
      (sampleSrc.value ≠ "" → (∃ o ∈ s1.options, o.value = sampleSrc.value) →
        s1.value = sampleSrc.value) ∧
      ((sampleSrc.value = "" ∨ ¬ ∃ o ∈ s1.options, o.value = sampleSrc.value) →
        s1.value = OptionElement.value ⟨"en", "English"⟩) ∧
      (sampleTarget.value ≠ "" → (∃ o ∈ t1.options, o.value = sampleTarget.value) →
        t1.value = sampleTarget.value) ∧
      ((sampleTarget.value = "" ∨ ¬ ∃ o ∈ t1.options, o.value = sampleTarget.value) →
        t1.value = OptionElement.value ⟨"ru", "Russian"⟩) :=
  populate_selection samplePage sampleSrc sampleTarget
    ⟨"en", "English"⟩ ⟨"ru", "Russian"⟩ [⟨"fr", "French"⟩, ⟨"de", "German"⟩] [⟨"fr", "French"⟩]
    ⟨"google", true⟩ sampleLanguages rfl rfl rfl rfl
    ⟨1, rfl, by decide⟩ ⟨0, rfl, by decide⟩ rfl

/-- C4, as stated, fails: on the sample page a body without a `languages`
array makes `populateLanguageSelects` clear the source select down to its first
option before the exception is raised and logged, so the dropdown is not what
it was before the call. -/
theorem fetchLanguages_absent_list_clears :
    (fetchLanguages (FetchResult.json JsLanguages.notArray) samplePage).page.src_lang
      = some ⟨[⟨"en", "English"⟩], some 0⟩ ∧
    (fetchLanguages (FetchResult.json JsLanguages.notArray) samplePage).page.src_lang
      ≠ samplePage.src_lang ∧
    (fetchLanguages (FetchResult.json JsLanguages.notArray) samplePage).consoleErrors
      = [JsError.typeError] := by
  simp only [fetchLanguages, populateLanguageSelects, samplePage, clearAfterFirst_eq_iterate]
  decide

/-- C4, amended: for a body without a `languages` array `fetchLanguages` ends
with no uncaught exception. The page is unchanged when the body is `null` or
when `src_lang` or `target_lang` is missing. When both selects exist and the
body is not `null`, every option after the first is removed from both selects;
with `libretranslate` checked they are then refilled from the built-in table and
nothing is logged, and otherwise (another provider checked, or none) each select
is left with its first option only and the exception is logged. -/
theorem fetchLanguages_absent_list (doc : Page) (res : FetchResult)
    (hres : res = FetchResult.jsonNull ∨ res = FetchResult.json JsLanguages.notArray) :
    (fetchLanguages res doc).rejection = none ∧
    ((res = FetchResult.jsonNull ∨ doc.src_lang = none ∨ doc.target_lang = none) →
      (fetchLanguages res doc).page = doc) ∧
    (∀ s t, res = FetchResult.json JsLanguages.notArray →
      doc.src_lang = some s → doc.target_lang = some t →
      ∃ s1 t1,
        (fetchLanguages res doc).page =
          { doc with src_lang := some s1, target_lang := some t1 } ∧
        (∀ r, doc.checkedApi = some r → r.value = "libretranslate" →
          s1.options = s.options.take 1 ++
            (libreTranslateLanguages.filter (fun l => decide (l.code ≠ "en"))).map optionOf ∧
          t1.options = t.options.take 1 ++
            (libreTranslateLanguages.filter (fun l => decide (l.code ≠ "ru"))).map optionOf ∧
          (fetchLanguages res doc).consoleErrors = []) ∧
        ((∀ r, doc.checkedApi = some r → r.value ≠ "libretranslate") →
          s1.options = s.options.take 1 ∧ t1.options = t.options.take 1 ∧
          (fetchLanguages res doc).consoleErrors = [JsError.typeError])) := by
  rcases hres with hres | hres
  · subst hres
    exact ⟨rfl, fun _ => rfl, fun s t h => by cases h⟩
  · subst hres
    refine ⟨?_, ?_, ?_⟩
    · simp only [fetchLanguages]
      split <;> simp_all
    · rintro (h | h | h)
      · cases h
      · simp [fetchLanguages, populateLanguageSelects_missing _ doc (Or.inl h)]
      · simp [fetchLanguages, populateLanguageSelects_missing _ doc (Or.inr h)]
    · intro s t _ hs ht
      cases hc : doc.checkedApi with
      | none =>
        refine ⟨clearAfterFirst s, clearAfterFirst t, ?_, ?_, ?_⟩
        · simp [fetchLanguages, populateLanguageSelects, hs, ht, hc]
        · intro r h
          cases h
        · intro _
          refine ⟨clearAfterFirst_options s, clearAfterFirst_options t, ?_⟩
          simp [fetchLanguages, populateLanguageSelects, hs, ht, hc]
      | some r =>
        by_cases hv : r.value = "libretranslate"
        · have hp := populateLanguageSelects_array JsLanguages.notArray doc s t r
            libreTranslateLanguages hs ht hc (if_pos hv)
          refine ⟨restoreSelected (libreTranslateLanguages.foldl addLanguage
              (clearAfterFirst s, clearAfterFirst t)).1 s.value,
            restoreSelected (libreTranslateLanguages.foldl addLanguage
              (clearAfterFirst s, clearAfterFirst t)).2 t.value, ?_, ?_, ?_⟩
          · simp only [fetchLanguages, hp]
          · intro r1 _ _
            refine ⟨?_, ?_, ?_⟩
            · rw [restoreSelected_options, foldl_addLanguage_src, clearAfterFirst_options]
            · rw [restoreSelected_options, foldl_addLanguage_target, clearAfterFirst_options]
            · simp only [fetchLanguages, hp]
          · intro h
            exact absurd hv (h r rfl)
        · refine ⟨clearAfterFirst s, clearAfterFirst t, ?_, ?_, ?_⟩
          · simp [fetchLanguages, populateLanguageSelects, hs, ht, hc, hv]
          · intro r1 h1 h2
            cases h1
            exact absurd h2 hv
          · intro _
            refine ⟨clearAfterFirst_options s, clearAfterFirst_options t, ?_⟩
            simp [fetchLanguages, populateLanguageSelects, hs, ht, hc, hv]

/-- Witness of the amended C4 on the sample page and a body without a
`languages` property. -/
theorem fetchLanguages_absent_list_witness :
    (fetchLanguages (FetchResult.json JsLanguages.notArray) samplePage).rejection = none :=
  (fetchLanguages_absent_list samplePage (FetchResult.json JsLanguages.notArray)
    (Or.inr rfl)).1

/-- C5: when the request rejects or the body is not JSON, `fetchLanguages` ends
with no uncaught exception, never invokes `populateLanguageSelects`, leaves the
page as it was and logs the error. -/
theorem fetchLanguages_failure (doc : Page) (res : FetchResult)
    (hres : res = FetchResult.rejected ∨ res = FetchResult.notJson) :
    (fetchLanguages res doc).rejection = none ∧
    (fetchLanguages res doc).populateCalls = [] ∧
    (fetchLanguages res doc).page = doc ∧
    (fetchLanguages res doc).consoleErrors.length = 1 := by
  rcases hres with hres | hres <;> subst hres <;> exact ⟨rfl, rfl, rfl, rfl⟩

/-- Witness of C5: a rejected request on the sample page. -/
theorem fetchLanguages_failure_witness :
    (fetchLanguages FetchResult.rejected samplePage).rejection = none ∧
    (fetchLanguages FetchResult.rejected samplePage).populateCalls = [] ∧
    (fetchLanguages FetchResult.rejected samplePage).page = samplePage ∧
    (fetchLanguages FetchResult.rejected samplePage).consoleErrors.length = 1 :=
  fetchLanguages_failure samplePage FetchResult.rejected (Or.inl rfl)

/-- C6, the failing input: on a page without the `custom-fields` container
`addCustomField` does not return early, it raises a `TypeError` (reading
`children` of `null`); the page itself is left as it was. -/
theorem addCustomField_missing_container_throws :
    (addCustomField pageWithoutContainer).thrown = some JsError.typeError ∧
    (addCustomField pageWithoutContainer).page = pageWithoutContainer := by
  decide

/-- C7: on a page whose container holds the rows `rows`, calling
`addCustomField` `n` times raises nothing and leaves the container with
`rows.length + n` rows: `rows` unchanged and in order, followed by `n` new rows,
each of class `custom-field-row` holding one text input that is empty, required
and named `fields`, and one remove button; nothing else on the page changes. -/
theorem addCustomField_n_times (doc : Page) (rows : List FieldRow) (n : Nat)
    (h : doc.customFields = some rows) :
    addCustomFieldTimes n doc =
      { page := { doc with customFields := some (rows ++ List.replicate n newFieldRow) }
        thrown := none } ∧
    (rows ++ List.replicate n newFieldRow).length = rows.length + n ∧
    (rows ++ List.replicate n newFieldRow).take rows.length = rows ∧
    (∀ row ∈ (rows ++ List.replicate n newFieldRow).drop rows.length,
      row.className = "custom-field-row" ∧
      row.children =
        [ RowChild.input "text" "form-control" "fields" "Enter field name" true "",
          RowChild.button "button" "btn btn-outline-danger" "removeCustomField(this)"
            "&times;" ]) := by
  refine ⟨?_, by simp, by simp, ?_⟩
  · induction n generalizing doc rows with
    | zero =>
      obtain ⟨a, b, c, d, e⟩ := doc
      simp only at h
      subst h
      simp [addCustomFieldTimes]
    | succ k ih =>
      have hstep : addCustomField doc =
          { page := { doc with customFields := some (rows ++ [newFieldRow]) }, thrown := none } := by
        simp [addCustomField, h]
      simp only [addCustomFieldTimes, hstep]
      rw [ih _ (rows ++ [newFieldRow]) rfl]
      simp [List.replicate_succ]
  · intro row hrow
    rw [List.drop_left] at hrow
    rw [List.eq_of_mem_replicate hrow]
    exact ⟨rfl, rfl⟩

/-- Witness of C7: three clicks on a page holding three rows. -/
theorem addCustomField_n_times_witness :
    addCustomFieldTimes 3 pageWithRows =
      { page :=
          { pageWithRows with
            customFields :=
              some ([filledRow "title", filledRow "body", filledRow "note"] ++
                List.replicate 3 newFieldRow) }
        thrown := none } :=
  (addCustomField_n_times pageWithRows [filledRow "title", filledRow "body", filledRow "note"] 3
    rfl).1

/-- C8: on a page whose container holds the rows `rows`, `removeCustomField`
called with the remove button of the row at position `i` raises nothing and
leaves the rows before `i` followed by the rows after `i`: one row fewer, every
other row still there as it was, in the same order; nothing else on the page
changes. -/
theorem removeCustomField_removes_row (doc : Page) (rows : List FieldRow) (i : Nat)
    (h : doc.customFields = some rows) (hi : i < rows.length) :
    removeCustomField (removeButtonOf i) doc =
      { page := { doc with customFields := some (rows.take i ++ rows.drop (i + 1)) }
        thrown := none } ∧
    (rows.take i ++ rows.drop (i + 1)).length = rows.length - 1 ∧
    (∀ j, j < i → (rows.take i ++ rows.drop (i + 1))[j]? = rows[j]?) ∧
    (∀ j, i ≤ j → (rows.take i ++ rows.drop (i + 1))[j]? = rows[j + 1]?) := by
  rw [← List.eraseIdx_eq_take_drop_succ]
  refine ⟨?_, ?_, ?_, ?_⟩
  · simp [removeCustomField, removeButtonOf, h]
  · rw [List.length_eraseIdx, if_pos hi]
  · intro j hj
    exact List.getElem?_eraseIdx_of_lt rows i j hj
  · intro j hj
    exact List.getElem?_eraseIdx_of_ge rows i j hj

/-- Witness of C8: the middle row of three is removed. -/
theorem removeCustomField_removes_row_witness :
    removeCustomField (removeButtonOf 1) pageWithRows =
      { page := { pageWithRows with customFields := some [filledRow "title", filledRow "note"] }
        thrown := none } :=
  (removeCustomField_removes_row pageWithRows
    [filledRow "title", filledRow "body", filledRow "note"] 1 rfl (by decide)).1

/-- C9, as stated, fails: the built-in table does not have 20 entries. -/
theorem libreTranslateLanguages_length_ne_twenty : libreTranslateLanguages.length ≠ 20 := by
  decide

/-- C9, amended: the built-in table used for the LibreTranslate provider has
exactly 21 entries. -/
theorem libreTranslateLanguages_length : libreTranslateLanguages.length = 21 := by
  decide

/-- C10: with both selects present, each with a first option, and a provider
radio checked, running `populateLanguageSelects(L1)` and then
`populateLanguageSelects(L2)` raises nothing and leaves both selects with the
option lists that `populateLanguageSelects(L2)` alone gives from the original
page. -/
theorem populate_last_wins (doc : Page) (s t : SelectElement) (fs ft : OptionElement)
    (rs rt : List OptionElement) (r : RadioInput) (L1 L2 : List Language)
    (hs : doc.src_lang = some s) (ht : doc.target_lang = some t)
    (hfs : s.options = fs :: rs) (hft : t.options = ft :: rt)
    (hr : doc.checkedApi = some r) :
    ∃ s12 t12 s2 t2,
      (populateLanguageSelects (JsLanguages.array L1) doc).thrown = none ∧
      (populateLanguageSelects (JsLanguages.array L2)
        (populateLanguageSelects (JsLanguages.array L1) doc).page).thrown = none ∧
      (populateLanguageSelects (JsLanguages.array L2)
        (populateLanguageSelects (JsLanguages.array L1) doc).page).page.src_lang = some s12 ∧
      (populateLanguageSelects (JsLanguages.array L2)
        (populateLanguageSelects (JsLanguages.array L1) doc).page).page.target_lang = some t12 ∧
      (populateLanguageSelects (JsLanguages.array L2) doc).thrown = none ∧
      (populateLanguageSelects (JsLanguages.array L2) doc).page.src_lang = some s2 ∧
      (populateLanguageSelects (JsLanguages.array L2) doc).page.target_lang = some t2 ∧
      s12.options = s2.options ∧ t12.options = t2.options := by
  obtain ⟨langs1, hl1, _, _⟩ := languagesToUse_array r L1
  obtain ⟨langs2, hl2, _, _⟩ := languagesToUse_array r L2
  obtain ⟨s1, t1, h1, hs1, ht1⟩ :=
    populateLanguageSelects_options (JsLanguages.array L1) doc s t fs ft rs rt r langs1
      hs ht hfs hft hr hl1
  obtain ⟨s2, t2, h2, hs2, ht2⟩ :=
    populateLanguageSelects_options (JsLanguages.array L2) doc s t fs ft rs rt r langs2
      hs ht hfs hft hr hl2
  obtain ⟨s12, t12, h12, hs12, ht12⟩ :=
    populateLanguageSelects_options (JsLanguages.array L2)
      { doc with src_lang := some s1, target_lang := some t1 } s1 t1 fs ft _ _ r langs2
      rfl rfl hs1 ht1 hr hl2
  refine ⟨s12, t12, s2, t2, ?_⟩
  rw [h1, h12, h2]
  exact ⟨rfl, rfl, rfl, rfl, rfl, rfl, rfl, hs12.trans hs2.symm, ht12.trans ht2.symm⟩

/-- Witness of C10 on the sample page: the sample list, then a one-entry list. -/
theorem populate_last_wins_witness :
    ∃ s12 t12 s2 t2,
      (populateLanguageSelects (JsLanguages.array sampleLanguages) samplePage).thrown = none ∧
      (populateLanguageSelects (JsLanguages.array [⟨"it", "Italian"⟩])
        (populateLanguageSelects (JsLanguages.array sampleLanguages) samplePage).page).thrown
        = none ∧
      (populateLanguageSelects (JsLanguages.array [⟨"it", "Italian"⟩])
        (populateLanguageSelects (JsLanguages.array sampleLanguages) samplePage).page).page.src_lang
        = some s12 ∧
      (populateLanguageSelects (JsLanguages.array [⟨"it", "Italian"⟩])
        (populateLanguageSelects (JsLanguages.array sampleLanguages)
          samplePage).page).page.target_lang = some t12 ∧
      (populateLanguageSelects (JsLanguages.array [⟨"it", "Italian"⟩]) samplePage).thrown = none ∧
      (populateLanguageSelects (JsLanguages.array [⟨"it", "Italian"⟩]) samplePage).page.src_lang
        = some s2 ∧
      (populateLanguageSelects (JsLanguages.array [⟨"it", "Italian"⟩]) samplePage).page.target_lang
        = some t2 ∧
      s12.options = s2.options ∧ t12.options = t2.options :=
  populate_last_wins samplePage sampleSrc sampleTarget
    ⟨"en", "English"⟩ ⟨"ru", "Russian"⟩ [⟨"fr", "French"⟩, ⟨"de", "German"⟩] [⟨"fr", "French"⟩]
    ⟨"google", true⟩ sampleLanguages [⟨"it", "Italian"⟩] rfl rfl rfl rfl rfl

end Script
